import Mathlib

/-!
# gocards: the front page handler and the process entry point

A shallow embedding of `internal/handler/handler.go` (the `Render` helper) and
`cmd/card_app/main.go` (route registration, the background backend task and the
blocking front server), with the properties of the specification stated over it.

The libraries the two files call (net/http, echo, templ, pocketbase) are not part
of the repository. They are represented by small explicit state machines that
follow their documented interface contracts; every such definition says so.
-/

namespace GoCards

/-! ## Values shared by both files -/

/-- Bytes of a response body. -/
abbrev Bytes := List UInt8

/-- Go error values: a base error, or an error wrapping another one. -/
inductive GoError where
  | base (msg : String)
  | wrap (msg : String) (inner : GoError)
deriving DecidableEq, Repr

/-- The chain walk of Go's errors.Is: `err` is `target` or wraps it at some depth. -/
def errorsIs : GoError → GoError → Bool
  | .base m, target => decide (GoError.base m = target)
  | .wrap m inner, target => decide (GoError.wrap m inner = target) || errorsIs inner target

/-- The constant http.StatusOK. -/
def StatusOK : Int := 200

/-- The constant echo.HeaderContentType. -/
def HeaderContentType : String := "Content-Type"

/-- The constant echo.MIMETextHTML. -/
def MIMETextHTML : String := "text/html"

/-! ## net/http: header map and response writer -/

/-- A header map, one value per key (the handler only ever uses Set). -/
abbrev Header := List (String × String)

/-- Header.Set: replace whatever is stored under `key` by `value`. -/
def Header.Set (h : Header) (key value : String) : Header :=
  (key, value) :: h.filter (fun kv => kv.1 != key)

/-- Header.Get: the value stored under `key`, if any. -/
def Header.Get (h : Header) (key : String) : Option String :=
  (h.find? (fun kv => kv.1 == key)).map (fun kv => kv.2)

/-- Operations performed on a response, in program order. -/
inductive Op where
  | writeHeader (status : Int)
  | headerSet (key value : String)
  | componentRender
  | write (p : Bytes)
deriving DecidableEq, Repr

/-- The http.ResponseWriter handed to a handler, following the interface contract of
net/http: the first WriteHeader commits the status together with a snapshot of the
header map, later changes of the map do not reach the committed response, and Write
appends to the body as long as the connection accepts bytes.

* `header`: the live map returned by Header()
* `wroteHeader`, `status`, `sentHeader`: the committed status line and headers
* `body`: the bytes the connection has accepted
* `capacity`: how many more bytes the connection accepts (`none`: no limit)
* `connErr`: the error a write reports once the connection stops accepting bytes
* `ops`: history of the calls made on this response -/
structure ResponseWriter where
  header : Header
  wroteHeader : Bool
  status : Int
  sentHeader : Header
  body : Bytes
  capacity : Option Nat
  connErr : GoError
  ops : List Op
deriving DecidableEq, Repr

/-- Commit the status line and freeze the headers, unless already committed. -/
def ResponseWriter.commit (w : ResponseWriter) (code : Int) : ResponseWriter :=
  if w.wroteHeader then w
  else { w with wroteHeader := true, status := code, sentHeader := w.header }

/-- ResponseWriter.WriteHeader(code). -/
def ResponseWriter.WriteHeader (w : ResponseWriter) (code : Int) : ResponseWriter :=
  { w.commit code with ops := w.ops ++ [Op.writeHeader code] }

/-- Header().Set(key, value) on the live header map of the writer. -/
def ResponseWriter.setHeader (w : ResponseWriter) (key value : String) : ResponseWriter :=
  { w with header := Header.Set w.header key value, ops := w.ops ++ [Op.headerSet key value] }

/-- ResponseWriter.Write(p): commits status 200 first when nothing was committed, then
hands `p` to the connection; returns the number of bytes accepted and the error. -/
def ResponseWriter.Write (w : ResponseWriter) (p : Bytes) :
    ResponseWriter × Nat × Option GoError :=
  let w1 := { w.commit StatusOK with ops := w.ops ++ [Op.write p] }
  match w1.capacity with
  | none => ({ w1 with body := w1.body ++ p }, p.length, none)
  | some k =>
    if p.length ≤ k then
      ({ w1 with body := w1.body ++ p, capacity := some (k - p.length) }, p.length, none)
    else
      ({ w1 with body := w1.body ++ p.take k, capacity := some 0 }, k, some w1.connErr)

/-! ## templ: components -/

/-- The request context (context.Context): request-scoped values and cancellation. -/
structure Context where
  values : List (String × String)
  err : Option GoError
deriving DecidableEq, Repr

/-- What a component does with the io.Writer it is given: it finishes with a result,
or writes a chunk and continues depending on what the write returned. -/
inductive Prog where
  | ret (err : Option GoError)
  | write (p : Bytes) (k : Nat → Option GoError → Prog)

/-- Run a component body against a writer. -/
def Prog.run : Prog → ResponseWriter → ResponseWriter × Option GoError
  | .ret err, w => (w, err)
  | .write p k, w => (k (w.Write p).2.1 (w.Write p).2.2).run (w.Write p).1

/-- The interface templ.Component: one method, Render(ctx, w). -/
structure Component where
  Render : Context → Prog

/-- The call `t.Render(ctx, w)`: recorded in the history, then executed. -/
def Component.call (t : Component) (ctx : Context) (w : ResponseWriter) :
    ResponseWriter × Option GoError :=
  (t.Render ctx).run { w with ops := w.ops ++ [Op.componentRender] }

/-- The first failure a Write reported while a component body ran against a writer;
`none` when every write was accepted in full. -/
def Prog.writeFailure : Prog → ResponseWriter → Option GoError
  | .ret _, _ => none
  | .write p k, w =>
    match (w.Write p).2.2 with
    | some e => some e
    | none => (k (w.Write p).2.1 none).writeFailure (w.Write p).1

/-- The first write failure during the call `t.Render(ctx, w)`. -/
def Component.writeFailure (t : Component) (ctx : Context) (w : ResponseWriter) :
    Option GoError :=
  (t.Render ctx).writeFailure { w with ops := w.ops ++ [Op.componentRender] }

/-- A component body that reports its write failures: it stops at the first failed write
and returns an error whose chain contains it, and it returns nil when it reaches its end. -/
def Prog.reportsWriteFailure : Prog → Prop
  | .ret err => err = none
  | .write _ k =>
    (∀ n e, ∃ e', k n (some e) = Prog.ret (some e') ∧ errorsIs e' e = true) ∧
    ∀ n, (k n none).reportsWriteFailure

/-- Modelled from the spec: the package views/layouts (BaseLayout) is not among the
sources. The spec describes the page as a static, parameterless document that is
serialized on demand and whose render step reports the write failure, if any; `doc`
stands for the bytes of that document. -/
def BaseLayout (doc : Bytes) : Component :=
  { Render := fun _ => Prog.write doc (fun _ err => Prog.ret err) }

/-! ## echo: request context and response wrapper -/

/-- The parts of http.Request a handler can observe. -/
structure Request where
  Method : String
  Path : String
  RawQuery : String
  Header : Header
  ctx : Context
deriving DecidableEq, Repr

/-- The wrapper echo.Response: the raw writer and the bookkeeping fields of the framework. -/
structure Response where
  Writer : ResponseWriter
  Status : Int
  Size : Int
  Committed : Bool
deriving DecidableEq, Repr

/-- The value behind echo.Context: the request and the response wrapper. -/
structure EchoContext where
  request : Request
  response : Response
deriving DecidableEq, Repr

/-- A connection: how many bytes it accepts and the error it reports afterwards. -/
structure Conn where
  capacity : Option Nat
  connErr : GoError
deriving DecidableEq, Repr

/-- The writer net/http creates for a new request: nothing committed, nothing written. -/
def ResponseWriter.fresh (conn : Conn) : ResponseWriter :=
  { header := [], wroteHeader := false, status := 0, sentHeader := [], body := [],
    capacity := conn.capacity, connErr := conn.connErr, ops := [] }

/-- The context echo hands to a handler for a new request (Response.reset). -/
def EchoContext.fresh (req : Request) (conn : Conn) : EchoContext :=
  { request := req,
    response := { Writer := ResponseWriter.fresh conn, Status := 200, Size := 0,
                  Committed := false } }

/-! ## internal/handler/handler.go -/

/-- The writer after lines 10 and 11 of Render: WriteHeader(status) on the raw writer,
then Header().Set(Content-Type, text/html). -/
def Render.headers (c : EchoContext) (status : Int) : ResponseWriter :=
  (c.response.Writer.WriteHeader status).setHeader HeaderContentType MIMETextHTML

/-- The function handler.Render(c, status, t): returns the context as left behind and the
error returned. -/
def Render (c : EchoContext) (status : Int) (t : Component) : EchoContext × Option GoError :=
  let w1 := c.response.Writer.WriteHeader status
  let w2 := w1.setHeader HeaderContentType MIMETextHTML
  let r := t.call c.request.ctx w2
  ({ c with response := { c.response with Writer := r.1 } }, r.2)

/-! ## cmd/card_app/main.go: the handler of GET / -/

/-- The closure registered for GET / (main.go lines 18 to 20); `layout` is the component
the call layouts.BaseLayout() returns. -/
def rootHandler (layout : Component) (c : EchoContext) : EchoContext × Option GoError :=
  Render c StatusOK layout

/-! ## echo: route table and dispatch -/

/-- The type echo.HandlerFunc. -/
abbrev HandlerFunc := EchoContext → EchoContext × Option GoError

/-- One registered route. -/
structure Route where
  Method : String
  Path : String
  Handler : HandlerFunc

/-- The Echo instance as far as main uses it: its route table. -/
structure Echo where
  routes : List Route

/-- The call echo.New(): no route registered. -/
def Echo.New : Echo := { routes := [] }

/-- The call e.GET(path, h): registers `h` for method GET and `path`. -/
def Echo.GET (e : Echo) (path : String) (h : HandlerFunc) : Echo :=
  { routes := e.routes ++ [{ Method := "GET", Path := path, Handler := h }] }

/-- Result of a route lookup. -/
inductive Found where
  | handler (h : HandlerFunc)
  | notFound
  | methodNotAllowed

/-- Route lookup for static paths (the only kind main registers): a route matches a
request when method and path are equal; a known path under another method yields the
default method-not-allowed handler, an unknown path the default not-found handler. -/
def Echo.Find (e : Echo) (method path : String) : Found :=
  match e.routes.find? (fun r => r.Path == path && r.Method == method) with
  | some r => Found.handler r.Handler
  | none => if e.routes.any (fun r => r.Path == path) then Found.methodNotAllowed
            else Found.notFound

/-- Outcome of dispatching one request. -/
inductive Served where
  | handled (c : EchoContext) (err : Option GoError)
  | notFound
  | methodNotAllowed

/-- Dispatch of one request (Echo.ServeHTTP): look the route up and run its handler on a
new context. -/
def Echo.ServeHTTP (e : Echo) (req : Request) (conn : Conn) : Served :=
  match e.Find req.Method req.Path with
  | Found.handler h => Served.handled (h (EchoContext.fresh req conn)).1
                         (h (EchoContext.fresh req conn)).2
  | Found.notFound => Served.notFound
  | Found.methodNotAllowed => Served.methodNotAllowed

/-! ## cmd/card_app/main.go: the process -/

/-- How the two blocking Start calls end: `none` when the call never returns,
`some r` when it returns `r` (`r = none` being Go's nil error). -/
structure Env where
  eStart : Option (Option GoError)
  pbStart : Option (Option GoError)
deriving DecidableEq, Repr

/-- The two goroutines of the process. -/
inductive Thread where
  | main
  | background
deriving DecidableEq, Repr

/-- Observable actions of the process. -/
inductive Event where
  | echoNew
  | pocketbaseNew
  | routeGET (path : String)
  | goStmt
  | eStartCall (addr : String)
  | eStartReturn (err : Option GoError)
  | logFatal (err : GoError)
  | mainReturn
  | pbStartCall
  | pbStartReturn (err : Option GoError)
  | logPrintf (err : GoError)
deriving DecidableEq, Repr

/-- The goroutine an action belongs to. -/
def Event.thread : Event → Thread
  | .pbStartCall => Thread.background
  | .pbStartReturn _ => Thread.background
  | .logPrintf _ => Thread.background
  | _ => Thread.main

/-- Program counter of func main: the statement about to run (main.go lines 14, 16, 18,
22 and 28), being blocked inside e.Start, the test of line 28 with the error returned,
and the two ways the goroutine ends. -/
inductive MainPc where
  | echoNew
  | pocketbaseNew
  | registerGET
  | goBackground
  | callStart
  | inStart
  | checkErr (err : Option GoError)
  | exitedFatal (err : GoError)
  | returned
deriving DecidableEq, Repr

/-- Program counter of the goroutine of lines 22 to 26. -/
inductive BgPc where
  | callPbStart
  | inPbStart
  | checkErr (err : Option GoError)
  | ended (err : Option GoError)
deriving DecidableEq, Repr

/-- State of the process: both program counters (`bg = none` until the go statement
ran), the Echo instance, and the actions so far. -/
structure Proc where
  main : MainPc
  bg : Option BgPc
  e : Echo
  trace : List Event

/-- Exit status of the process: 1 after log.Fatal, 0 after main returned. -/
def exitCode : MainPc → Option Nat
  | .exitedFatal _ => some 1
  | .returned => some 0
  | _ => none

/-- One step of func main. -/
def stepMain (layout : Component) (env : Env) (s : Proc) : Proc :=
  match s.main with
  | .echoNew =>
    { s with main := .pocketbaseNew, e := Echo.New, trace := s.trace ++ [.echoNew] }
  | .pocketbaseNew =>
    { s with main := .registerGET, trace := s.trace ++ [.pocketbaseNew] }
  | .registerGET =>
    { s with main := .goBackground, e := s.e.GET "/" (rootHandler layout),
             trace := s.trace ++ [.routeGET "/"] }
  | .goBackground =>
    { s with main := .callStart, bg := some .callPbStart, trace := s.trace ++ [.goStmt] }
  | .callStart =>
    { s with main := .inStart, trace := s.trace ++ [.eStartCall ":8080"] }
  | .inStart =>
    match env.eStart with
    | none => s
    | some r => { s with main := .checkErr r, trace := s.trace ++ [.eStartReturn r] }
  | .checkErr (some err) =>
    { s with main := .exitedFatal err, trace := s.trace ++ [.logFatal err] }
  | .checkErr none =>
    { s with main := .returned, trace := s.trace ++ [.mainReturn] }
  | .exitedFatal _ => s
  | .returned => s

/-- One step of the background goroutine. -/
def stepBackground (env : Env) (s : Proc) : Proc :=
  match s.bg with
  | none => s
  | some .callPbStart =>
    { s with bg := some .inPbStart, trace := s.trace ++ [.pbStartCall] }
  | some .inPbStart =>
    match env.pbStart with
    | none => s
    | some r => { s with bg := some (.checkErr r), trace := s.trace ++ [.pbStartReturn r] }
  | some (.checkErr (some err)) =>
    { s with bg := some (.ended (some err)), trace := s.trace ++ [.logPrintf err] }
  | some (.checkErr none) =>
    { s with bg := some (.ended none) }
  | some (.ended _) => s

/-- One scheduling step: nothing runs once the process has exited. -/
def step (layout : Component) (env : Env) (t : Thread) (s : Proc) : Proc :=
  if (exitCode s.main).isSome then s
  else match t with
    | Thread.main => stepMain layout env s
    | Thread.background => stepBackground env s

/-- The process at start. -/
def Proc.init : Proc :=
  { main := .echoNew, bg := none, e := Echo.New, trace := [] }

/-- An execution: the goroutines take steps in the order given by the schedule. -/
def run (layout : Component) (env : Env) (sched : List Thread) (s : Proc) : Proc :=
  sched.foldl (fun acc t => step layout env t acc) s

/-- The front server accepts requests while main is blocked inside e.Start. -/
def Proc.listening (s : Proc) : Bool :=
  decide (s.main = MainPc.inStart)

/-- A request arriving at the process: dispatched when the front server is listening. -/
def Proc.serve (s : Proc) (req : Request) (conn : Conn) : Option Served :=
  if s.listening then some (s.e.ServeHTTP req conn) else none

/-- The program-counter transition of func main taken by `stepMain`. -/
def mainNext (env : Env) : MainPc → MainPc
  | .echoNew => .pocketbaseNew
  | .pocketbaseNew => .registerGET
  | .registerGET => .goBackground
  | .goBackground => .callStart
  | .callStart => .inStart
  | .inStart =>
    match env.eStart with
    | none => .inStart
    | some r => .checkErr r
  | .checkErr (some err) => .exitedFatal err
  | .checkErr none => .returned
  | .exitedFatal err => .exitedFatal err
  | .returned => .returned

/-- The actions of func main up to a program counter. -/
def mainTrace : MainPc → List Event
  | .echoNew => []
  | .pocketbaseNew => [.echoNew]
  | .registerGET => [.echoNew, .pocketbaseNew]
  | .goBackground => [.echoNew, .pocketbaseNew, .routeGET "/"]
  | .callStart => [.echoNew, .pocketbaseNew, .routeGET "/", .goStmt]
  | .inStart => [.echoNew, .pocketbaseNew, .routeGET "/", .goStmt, .eStartCall ":8080"]
  | .checkErr r =>
    [.echoNew, .pocketbaseNew, .routeGET "/", .goStmt, .eStartCall ":8080", .eStartReturn r]
  | .exitedFatal err =>
    [.echoNew, .pocketbaseNew, .routeGET "/", .goStmt, .eStartCall ":8080",
     .eStartReturn (some err), .logFatal err]
  | .returned =>
    [.echoNew, .pocketbaseNew, .routeGET "/", .goStmt, .eStartCall ":8080",
     .eStartReturn none, .mainReturn]

/-- The actions of the background goroutine up to a program counter. -/
def bgTrace : Option BgPc → List Event
  | none => []
  | some .callPbStart => []
  | some .inPbStart => [.pbStartCall]
  | some (.checkErr r) => [.pbStartCall, .pbStartReturn r]
  | some (.ended (some err)) => [.pbStartCall, .pbStartReturn (some err), .logPrintf err]
  | some (.ended none) => [.pbStartCall, .pbStartReturn none]

/-- The Echo instance func main holds at a program counter. -/
def echoAt (layout : Component) : MainPc → Echo
  | .echoNew => Echo.New
  | .pocketbaseNew => Echo.New
  | .registerGET => Echo.New
  | _ => Echo.New.GET "/" (rootHandler layout)

/-- Whether the result recorded in a program counter of main is the one e.Start gave. -/
def mainEnvOk (env : Env) : MainPc → Prop
  | .checkErr r => env.eStart = some r
  | .exitedFatal err => env.eStart = some (some err)
  | .returned => env.eStart = some none
  | _ => True

/-- Whether the result recorded in a program counter of the background goroutine is the
one pb.Start gave. -/
def bgEnvOk (env : Env) : Option BgPc → Prop
  | some (.checkErr r) => env.pbStart = some r
  | some (.ended r) => env.pbStart = some r
  | _ => True

/-- Whether the go statement of line 22 has run at a program counter of main. -/
def spawned : MainPc → Bool
  | .echoNew => false
  | .pocketbaseNew => false
  | .registerGET => false
  | .goBackground => false
  | _ => true

/-- Invariant of every execution: each goroutine has performed exactly the actions its
program counter stands for, the recorded results are those of the environment, the
background goroutine exists exactly after the go statement, and the Echo instance is the
one built so far. -/
structure Inv (layout : Component) (env : Env) (s : Proc) : Prop where
  mainEvents : s.trace.filter (fun ev => decide (ev.thread = Thread.main)) = mainTrace s.main
  bgEvents : s.trace.filter (fun ev => decide (ev.thread = Thread.background)) = bgTrace s.bg
  mainEnv : mainEnvOk env s.main
  bgEnv : bgEnvOk env s.bg
  bgSpawned : s.bg.isSome = spawned s.main
  echo : s.e = echoAt layout s.main

/-- Whether an action is one of the two Start calls. -/
def Event.isStartCall : Event → Bool
  | .eStartCall _ => true
  | .pbStartCall => true
  | _ => false

/-- Whether an action is a log.Printf of the background goroutine. -/
def Event.isLogPrintf : Event → Bool
  | .logPrintf _ => true
  | _ => false

/-- In a history, every Start call comes after the go statement. -/
def GoFirst (tr : List Event) : Prop :=
  ∀ pre post x, tr = pre ++ x :: post → x.isStartCall = true → Event.goStmt ∈ pre

/-! ## Lemmas on the response writer and on components -/

theorem errorsIs_refl (e : GoError) : errorsIs e e = true := by
  cases e <;> simp [errorsIs]

theorem commit_header (w : ResponseWriter) (code : Int) : (w.commit code).header = w.header := by
  unfold ResponseWriter.commit
  split <;> rfl

theorem commit_wroteHeader (w : ResponseWriter) (code : Int) :
    (w.commit code).wroteHeader = true := by
  unfold ResponseWriter.commit
  split
  · assumption
  · rfl

theorem commit_of_wroteHeader (w : ResponseWriter) (code : Int) (h : w.wroteHeader = true) :
    w.commit code = w := by
  simp [ResponseWriter.commit, h]

theorem commit_body (w : ResponseWriter) (code : Int) : (w.commit code).body = w.body := by
  unfold ResponseWriter.commit
  split <;> rfl

theorem Write_ops (w : ResponseWriter) (p : Bytes) : (w.Write p).1.ops = w.ops ++ [Op.write p] := by
  unfold ResponseWriter.Write
  dsimp only
  split
  · rfl
  · split <;> rfl

theorem Write_header (w : ResponseWriter) (p : Bytes) : (w.Write p).1.header = w.header := by
  unfold ResponseWriter.Write
  dsimp only
  split
  · exact commit_header w StatusOK
  · split <;> exact commit_header w StatusOK

theorem Write_wroteHeader (w : ResponseWriter) (p : Bytes) : (w.Write p).1.wroteHeader = true := by
  unfold ResponseWriter.Write
  dsimp only
  split
  · exact commit_wroteHeader w StatusOK
  · split <;> exact commit_wroteHeader w StatusOK

theorem Write_committed (w : ResponseWriter) (p : Bytes) (h : w.wroteHeader = true) :
    (w.Write p).1.status = w.status ∧ (w.Write p).1.sentHeader = w.sentHeader := by
  unfold ResponseWriter.Write
  rw [commit_of_wroteHeader w StatusOK h]
  dsimp only
  split
  · exact ⟨rfl, rfl⟩
  · split <;> exact ⟨rfl, rfl⟩

theorem run_ops (prog : Prog) : ∀ w : ResponseWriter,
    ∃ ws : List Op, (prog.run w).1.ops = w.ops ++ ws ∧ ∀ o ∈ ws, ∃ p, o = Op.write p := by
  induction prog with
  | ret err => intro w; exact ⟨[], by simp [Prog.run], by simp⟩
  | write p k ih =>
    intro w
    obtain ⟨ws, h1, h2⟩ := ih (w.Write p).2.1 (w.Write p).2.2 (w.Write p).1
    refine ⟨Op.write p :: ws, ?_, ?_⟩
    · simp only [Prog.run]
      rw [h1, Write_ops]
      simp
    · intro o ho
      rcases List.mem_cons.mp ho with h | h
      · exact ⟨p, h⟩
      · exact h2 o h

theorem run_header (prog : Prog) : ∀ w : ResponseWriter, (prog.run w).1.header = w.header := by
  induction prog with
  | ret err => intro w; rfl
  | write p k ih =>
    intro w
    simp only [Prog.run]
    rw [ih, Write_header]

theorem run_committed (prog : Prog) : ∀ w : ResponseWriter, w.wroteHeader = true →
    (prog.run w).1.wroteHeader = true ∧ (prog.run w).1.status = w.status ∧
      (prog.run w).1.sentHeader = w.sentHeader := by
  induction prog with
  | ret err => intro w h; exact ⟨h, rfl, rfl⟩
  | write p k ih =>
    intro w h
    simp only [Prog.run]
    obtain ⟨h1, h2, h3⟩ := ih (w.Write p).2.1 (w.Write p).2.2 (w.Write p).1 (Write_wroteHeader w p)
    obtain ⟨h4, h5⟩ := Write_committed w p h
    exact ⟨h1, h2.trans h4, h3.trans h5⟩

theorem Write_body (w : ResponseWriter) (p : Bytes) :
    ∃ extra, (w.Write p).1.body = w.body ++ extra := by
  unfold ResponseWriter.Write
  dsimp only
  split
  · exact ⟨p, by simp [commit_body]⟩
  · split
    · exact ⟨p, by simp [commit_body]⟩
    · exact ⟨_, by simp only [commit_body]; rfl⟩

theorem run_body (prog : Prog) : ∀ w : ResponseWriter,
    ∃ extra, (prog.run w).1.body = w.body ++ extra := by
  induction prog with
  | ret err => intro w; exact ⟨[], by simp [Prog.run]⟩
  | write p k ih =>
    intro w
    obtain ⟨x1, h1⟩ := Write_body w p
    obtain ⟨x2, h2⟩ := ih (w.Write p).2.1 (w.Write p).2.2 (w.Write p).1
    refine ⟨x1 ++ x2, ?_⟩
    simp only [Prog.run]
    rw [h2, h1, List.append_assoc]

theorem run_reports (prog : Prog) : ∀ w : ResponseWriter, prog.reportsWriteFailure →
    ((prog.run w).2 = none ↔ prog.writeFailure w = none) ∧
    ∀ e, (prog.run w).2 = some e →
      ∃ we, prog.writeFailure w = some we ∧ errorsIs e we = true := by
  induction prog with
  | ret err =>
    intro w h
    have h0 : err = none := h
    subst h0
    simp [Prog.run, Prog.writeFailure]
  | write p k ih =>
    intro w h
    obtain ⟨hfail, hok⟩ : (∀ n e, ∃ e', k n (some e) = Prog.ret (some e') ∧
        errorsIs e' e = true) ∧ ∀ n, (k n none).reportsWriteFailure := h
    cases hr : (w.Write p).2.2 with
    | none =>
      have ih2 := ih (w.Write p).2.1 none (w.Write p).1 (hok _)
      simp only [Prog.run, Prog.writeFailure, hr]
      exact ih2
    | some we =>
      obtain ⟨e', hk, his⟩ := hfail (w.Write p).2.1 we
      simp only [Prog.run, Prog.writeFailure, hr, hk]
      refine ⟨by simp, ?_⟩
      intro e he
      have : e' = e := by simpa using he
      subst this
      exact ⟨we, rfl, his⟩

theorem headers_wroteHeader (c : EchoContext) (status : Int) :
    (Render.headers c status).wroteHeader = true := by
  simp [Render.headers, ResponseWriter.setHeader, ResponseWriter.WriteHeader, commit_wroteHeader]

theorem Render_writer (c : EchoContext) (status : Int) (t : Component) :
    (Render c status t).1.response.Writer = (t.call c.request.ctx (Render.headers c status)).1 := rfl

theorem Render_err (c : EchoContext) (status : Int) (t : Component) :
    (Render c status t).2 = (t.call c.request.ctx (Render.headers c status)).2 := rfl

theorem Header_Get_Set (h : Header) (key value : String) :
    Header.Get (Header.Set h key value) key = some value := by
  simp [Header.Get, Header.Set]

theorem headers_ops (c : EchoContext) (status : Int) :
    (Render.headers c status).ops = c.response.Writer.ops ++
      [Op.writeHeader status, Op.headerSet HeaderContentType MIMETextHTML] := by
  simp [Render.headers, ResponseWriter.setHeader, ResponseWriter.WriteHeader]

theorem Render_ops (c : EchoContext) (status : Int) (t : Component) :
    ∃ ws : List Op,
      (Render c status t).1.response.Writer.ops = c.response.Writer.ops ++
        [Op.writeHeader status, Op.headerSet HeaderContentType MIMETextHTML,
         Op.componentRender] ++ ws ∧
      ∀ o ∈ ws, ∃ p, o = Op.write p := by
  obtain ⟨ws, h1, h2⟩ := run_ops (t.Render c.request.ctx)
    { Render.headers c status with
      ops := (Render.headers c status).ops ++ [Op.componentRender] }
  refine ⟨ws, ?_, h2⟩
  rw [Render_writer]
  unfold Component.call
  rw [h1]
  simp [headers_ops]

theorem Render_committed (c : EchoContext) (status : Int) (t : Component) :
    (Render c status t).1.response.Writer.wroteHeader = true ∧
    (Render c status t).1.response.Writer.status = (Render.headers c status).status ∧
    (Render c status t).1.response.Writer.sentHeader = (Render.headers c status).sentHeader := by
  rw [Render_writer]
  unfold Component.call
  exact run_committed (t.Render c.request.ctx) _ (headers_wroteHeader c status)

theorem Render_header (c : EchoContext) (status : Int) (t : Component) :
    (Render c status t).1.response.Writer.header =
      Header.Set c.response.Writer.header HeaderContentType MIMETextHTML := by
  rw [Render_writer]
  unfold Component.call
  rw [run_header]
  simp [Render.headers, ResponseWriter.setHeader, ResponseWriter.WriteHeader, commit_header]

theorem headers_of_uncommitted (c : EchoContext) (status : Int)
    (h : c.response.Writer.wroteHeader = false) :
    (Render.headers c status).status = status ∧
    (Render.headers c status).sentHeader = c.response.Writer.header := by
  simp [Render.headers, ResponseWriter.setHeader, ResponseWriter.WriteHeader,
    ResponseWriter.commit, h]

theorem rootHandler_writer (layout : Component) (req : Request) (conn : Conn) :
    (rootHandler layout (EchoContext.fresh req conn)).1.response.Writer.wroteHeader = true ∧
    (rootHandler layout (EchoContext.fresh req conn)).1.response.Writer.status = 200 ∧
    Header.Get (rootHandler layout (EchoContext.fresh req conn)).1.response.Writer.header
      "Content-Type" = some "text/html" ∧
    Header.Get (rootHandler layout (EchoContext.fresh req conn)).1.response.Writer.sentHeader
      "Content-Type" = none := by
  obtain ⟨h1, h2, h3⟩ := Render_committed (EchoContext.fresh req conn) StatusOK layout
  obtain ⟨h4, h5⟩ := headers_of_uncommitted (EchoContext.fresh req conn) StatusOK rfl
  refine ⟨h1, ?_, ?_, ?_⟩
  · exact (h2.trans h4)
  · show Header.Get (Render _ _ _).1.response.Writer.header "Content-Type" = some "text/html"
    rw [Render_header]
    exact Header_Get_Set _ _ _
  · show Header.Get (Render _ _ _).1.response.Writer.sentHeader "Content-Type" = none
    rw [h3, h5]
    rfl

theorem serve_root (layout : Component) (req : Request) (conn : Conn) (hm : req.Method = "GET")
    (hp : req.Path = "/") :
    (echoAt layout MainPc.inStart).ServeHTTP req conn =
      Served.handled (rootHandler layout (EchoContext.fresh req conn)).1
        (rootHandler layout (EchoContext.fresh req conn)).2 := by
  simp [Echo.ServeHTTP, Echo.Find, echoAt, Echo.GET, Echo.New, hm, hp]

theorem commit_capacity (w : ResponseWriter) (code : Int) :
    (w.commit code).capacity = w.capacity ∧ (w.commit code).connErr = w.connErr := by
  unfold ResponseWriter.commit
  split <;> exact ⟨rfl, rfl⟩

theorem Write_result (w : ResponseWriter) (p : Bytes) :
    (w.Write p).2.2 =
      match w.capacity with
      | none => none
      | some k => if p.length ≤ k then none else some w.connErr := by
  unfold ResponseWriter.Write
  dsimp only
  rw [(commit_capacity w StatusOK).1, (commit_capacity w StatusOK).2]
  cases w.capacity with
  | none => rfl
  | some k =>
    dsimp only
    split <;> rfl

theorem BaseLayout_reports (doc : Bytes) (ctx : Context) :
    ((BaseLayout doc).Render ctx).reportsWriteFailure :=
  ⟨fun _ e => ⟨e, rfl, errorsIs_refl e⟩, fun _ => rfl⟩

/-! ## The claims about Render and the handler of GET / -/

/-- C1: for every request dispatched to the route GET / of the Echo instance main
serves, whatever its query string, headers and context, the committed status is 200 and
Content-Type is set to text/html on the header map; but the set happens after
WriteHeader froze the headers, so the committed headers carry no Content-Type. -/
theorem root_route_committed_response (layout : Component) (query : String) (hdr : Header)
    (ctx : Context) (conn : Conn) :
    ∃ c err, (echoAt layout MainPc.inStart).ServeHTTP ⟨"GET", "/", query, hdr, ctx⟩ conn =
        Served.handled c err ∧
      c.response.Writer.wroteHeader = true ∧
      c.response.Writer.status = 200 ∧
      Header.Get c.response.Writer.header "Content-Type" = some "text/html" ∧
      Header.Get c.response.Writer.sentHeader "Content-Type" = none :=
  ⟨_, _, serve_root layout ⟨"GET", "/", query, hdr, ctx⟩ conn rfl rfl,
    rootHandler_writer layout ⟨"GET", "/", query, hdr, ctx⟩ conn⟩

/-- C2 (as stated, refuted): a component that ignores the result of its write makes
Render return nil although the write failed, and a component that returns an error of
its own makes Render fail although every byte was written. -/
theorem Render_result_not_tied_to_writes :
    ¬ ((Render (EchoContext.fresh ⟨"GET", "/", "", [], ⟨[], none⟩⟩
          ⟨some 0, GoError.base "closed"⟩)
        200 ⟨fun _ => Prog.write [60] (fun _ _ => Prog.ret none)⟩).2 = none ↔
      Component.writeFailure ⟨fun _ => Prog.write [60] (fun _ _ => Prog.ret none)⟩ ⟨[], none⟩
        (Render.headers
          (EchoContext.fresh ⟨"GET", "/", "", [], ⟨[], none⟩⟩ ⟨some 0, GoError.base "closed"⟩)
          200) = none) ∧
    ((Render (EchoContext.fresh ⟨"GET", "/", "", [], ⟨[], none⟩⟩ ⟨some 0, GoError.base "closed"⟩)
        200 ⟨fun _ => Prog.write [60] (fun _ _ => Prog.ret none)⟩).2 = none ∧
      Component.writeFailure ⟨fun _ => Prog.write [60] (fun _ _ => Prog.ret none)⟩ ⟨[], none⟩
        (Render.headers
          (EchoContext.fresh ⟨"GET", "/", "", [], ⟨[], none⟩⟩ ⟨some 0, GoError.base "closed"⟩)
          200) = some (GoError.base "closed")) ∧
    ((Render (EchoContext.fresh ⟨"GET", "/", "", [], ⟨[], none⟩⟩ ⟨none, GoError.base "closed"⟩)
        200 ⟨fun _ => Prog.write [60] (fun _ _ => Prog.ret (some (GoError.base "boom")))⟩).2 =
          some (GoError.base "boom") ∧
      Component.writeFailure
        ⟨fun _ => Prog.write [60] (fun _ _ => Prog.ret (some (GoError.base "boom")))⟩ ⟨[], none⟩
        (Render.headers
          (EchoContext.fresh ⟨"GET", "/", "", [], ⟨[], none⟩⟩ ⟨none, GoError.base "closed"⟩)
          200) = none ∧
      (Render (EchoContext.fresh ⟨"GET", "/", "", [], ⟨[], none⟩⟩ ⟨none, GoError.base "closed"⟩)
        200 ⟨fun _ => Prog.write [60] (fun _ _ => Prog.ret (some (GoError.base "boom")))⟩
        ).1.response.Writer.body = [60]) :=
  ⟨fun h => Option.some_ne_none (GoError.base "closed") (h.mp rfl), ⟨rfl, rfl⟩, rfl, rfl, rfl⟩

/-- C2 (amended): Render returns what the single call of the component returns and leaves
the writer that call leaves, and the component is called exactly once; for a component
that reports its write failures Render returns nil exactly when no write failed, and
otherwise an error whose chain contains the write failure; for the component that writes
one document and returns the result of that write, Render fails exactly when the
connection does not accept the whole document, with the error of the connection. -/
theorem Render_returns_component_result (c : EchoContext) (status : Int) (t : Component) :
    (Render c status t).2 = (t.call c.request.ctx (Render.headers c status)).2 ∧
    (Render c status t).1.response.Writer =
      (t.call c.request.ctx (Render.headers c status)).1 ∧
    (Render c status t).1.response.Writer.ops.count Op.componentRender =
      c.response.Writer.ops.count Op.componentRender + 1 ∧
    ((t.Render c.request.ctx).reportsWriteFailure →
      ((Render c status t).2 = none ↔
        t.writeFailure c.request.ctx (Render.headers c status) = none) ∧
      ∀ e, (Render c status t).2 = some e →
        ∃ we, t.writeFailure c.request.ctx (Render.headers c status) = some we ∧
          errorsIs e we = true) ∧
    (∀ doc : Bytes,
      (Render c status ⟨fun _ => Prog.write doc (fun _ err => Prog.ret err)⟩).2 =
        match c.response.Writer.capacity with
        | none => none
        | some k => if doc.length ≤ k then none else some c.response.Writer.connErr) := by
  refine ⟨rfl, rfl, ?_, ?_, ?_⟩
  · obtain ⟨ws, h1, h2⟩ := Render_ops c status t
    have hws : ws.count Op.componentRender = 0 := by
      apply List.count_eq_zero.mpr
      intro hmem
      obtain ⟨p, hp⟩ := h2 _ hmem
      cases hp
    rw [h1]
    simp [List.count_append, hws]
  · intro hrep
    rw [Render_err]
    exact run_reports (t.Render c.request.ctx) _ hrep
  · intro doc
    rw [Render_err]
    simp only [Component.call, Prog.run]
    rw [Write_result]
    simp only [Render.headers, ResponseWriter.setHeader, ResponseWriter.WriteHeader]
    rw [(commit_capacity c.response.Writer status).1, (commit_capacity c.response.Writer status).2]

/-- Witness for C2: the page component reports its write failures; over a connection that
accepts one byte of a two-byte document Render returns the error of the connection. -/
theorem Render_returns_component_result_witness :
    ((BaseLayout [60, 104]).Render ⟨[], none⟩).reportsWriteFailure ∧
    (Render (EchoContext.fresh ⟨"GET", "/", "", [], ⟨[], none⟩⟩ ⟨some 1, GoError.base "closed"⟩)
      200 (BaseLayout [60, 104])).2 = some (GoError.base "closed") ∧
    ∃ we, (BaseLayout [60, 104]).writeFailure ⟨[], none⟩
        (Render.headers
          (EchoContext.fresh ⟨"GET", "/", "", [], ⟨[], none⟩⟩ ⟨some 1, GoError.base "closed"⟩)
          200) = some we ∧
      errorsIs (GoError.base "closed") we = true :=
  ⟨BaseLayout_reports [60, 104] ⟨[], none⟩, rfl,
    ((Render_returns_component_result
      (EchoContext.fresh ⟨"GET", "/", "", [], ⟨[], none⟩⟩ ⟨some 1, GoError.base "closed"⟩)
      200 (BaseLayout [60, 104])).2.2.2.1 (BaseLayout_reports [60, 104] ⟨[], none⟩)).2
      (GoError.base "closed") rfl⟩

/-- C3: when the component is called the status is committed on the response (the given
status, or the earlier one if the response was committed before), Content-Type is stored
as text/html in the header map and no body byte has been written; the component runs on
that writer, the body only grows by what the component writes, status and Content-Type
stay as they were set; and on the history of response operations Render appends the
status write, then the Content-Type set, then the call of the component, and everything
after that is a write of the component. -/
theorem Render_headers_precede_body (c : EchoContext) (status : Int) (t : Component) :
    (Render.headers c status).wroteHeader = true ∧
    (Render.headers c status).status =
      (if c.response.Writer.wroteHeader then c.response.Writer.status else status) ∧
    Header.Get (Render.headers c status).header HeaderContentType = some MIMETextHTML ∧
    (Render.headers c status).body = c.response.Writer.body ∧
    (Render c status t).1.response.Writer =
      (t.call c.request.ctx (Render.headers c status)).1 ∧
    (∃ extra, (Render c status t).1.response.Writer.body = c.response.Writer.body ++ extra) ∧
    (Render c status t).1.response.Writer.wroteHeader = true ∧
    (Render c status t).1.response.Writer.status = (Render.headers c status).status ∧
    Header.Get (Render c status t).1.response.Writer.header HeaderContentType =
      some MIMETextHTML ∧
    ∃ ws : List Op,
      (Render c status t).1.response.Writer.ops = c.response.Writer.ops ++
        [Op.writeHeader status, Op.headerSet HeaderContentType MIMETextHTML,
         Op.componentRender] ++ ws ∧
      ∀ o ∈ ws, ∃ p, o = Op.write p := by
  have hbody : (Render.headers c status).body = c.response.Writer.body := by
    simp [Render.headers, ResponseWriter.setHeader, ResponseWriter.WriteHeader, commit_body]
  obtain ⟨h1, h2, _⟩ := Render_committed c status t
  refine ⟨headers_wroteHeader c status, ?_, ?_, hbody, rfl, ?_, h1, h2, ?_, Render_ops c status t⟩
  · cases hw : c.response.Writer.wroteHeader <;>
      simp [Render.headers, ResponseWriter.setHeader, ResponseWriter.WriteHeader,
        ResponseWriter.commit, hw]
  · simp only [Render.headers, ResponseWriter.setHeader]
    exact Header_Get_Set _ _ _
  · obtain ⟨extra, hx⟩ := run_body (t.Render c.request.ctx)
      { Render.headers c status with
        ops := (Render.headers c status).ops ++ [Op.componentRender] }
    refine ⟨extra, ?_⟩
    rw [Render_writer]
    unfold Component.call
    rw [hx]
    show (Render.headers c status).body ++ extra = _
    rw [hbody]
  · rw [Render_header]
    exact Header_Get_Set _ _ _

/-- C4: for any two requests the handler of GET / performs the same operations with the
same bytes and leaves the same status and headers, whatever the two connections do; over
connections that behave alike the whole response (body included) and the result are
equal; and over connections that accept every byte both bodies are the document. -/
theorem rootHandler_request_independent (doc : Bytes) (r1 r2 : Request) (conn1 conn2 : Conn) :
    ((rootHandler (BaseLayout doc) (EchoContext.fresh r1 conn1)).1.response.Writer.status =
      (rootHandler (BaseLayout doc) (EchoContext.fresh r2 conn2)).1.response.Writer.status ∧
     (rootHandler (BaseLayout doc) (EchoContext.fresh r1 conn1)).1.response.Writer.header =
      (rootHandler (BaseLayout doc) (EchoContext.fresh r2 conn2)).1.response.Writer.header ∧
     (rootHandler (BaseLayout doc) (EchoContext.fresh r1 conn1)).1.response.Writer.sentHeader =
      (rootHandler (BaseLayout doc) (EchoContext.fresh r2 conn2)).1.response.Writer.sentHeader ∧
     (rootHandler (BaseLayout doc) (EchoContext.fresh r1 conn1)).1.response.Writer.ops =
      (rootHandler (BaseLayout doc) (EchoContext.fresh r2 conn2)).1.response.Writer.ops) ∧
    ((rootHandler (BaseLayout doc) (EchoContext.fresh r1 conn1)).1.response =
      (rootHandler (BaseLayout doc) (EchoContext.fresh r2 conn1)).1.response ∧
     (rootHandler (BaseLayout doc) (EchoContext.fresh r1 conn1)).2 =
      (rootHandler (BaseLayout doc) (EchoContext.fresh r2 conn1)).2) ∧
    (conn1.capacity = none → conn2.capacity = none →
      (rootHandler (BaseLayout doc) (EchoContext.fresh r1 conn1)).1.response.Writer.body = doc ∧
      (rootHandler (BaseLayout doc) (EchoContext.fresh r2 conn2)).1.response.Writer.body = doc) := by
  have hw := fun (r : Request) (c : Conn) => rootHandler_writer (BaseLayout doc) r c
  have hc := fun (r : Request) (c : Conn) =>
    Render_committed (EchoContext.fresh r c) StatusOK (BaseLayout doc)
  have hh := fun (r : Request) (c : Conn) =>
    Render_header (EchoContext.fresh r c) StatusOK (BaseLayout doc)
  refine ⟨⟨?_, ?_, ?_, ?_⟩, ⟨rfl, rfl⟩, ?_⟩
  · rw [(hw r1 conn1).2.1, (hw r2 conn2).2.1]
  · exact (hh r1 conn1).trans (hh r2 conn2).symm
  · exact (hc r1 conn1).2.2.trans (hc r2 conn2).2.2.symm
  · show (Render _ _ _).1.response.Writer.ops = (Render _ _ _).1.response.Writer.ops
    rw [Render_writer, Render_writer]
    simp only [Component.call, BaseLayout, Prog.run, Write_ops]
    rfl
  · intro h1 h2
    constructor
    · show (Render _ _ _).1.response.Writer.body = doc
      simp [Render, Component.call, BaseLayout, Prog.run, ResponseWriter.Write,
        ResponseWriter.setHeader, ResponseWriter.WriteHeader, ResponseWriter.commit,
        EchoContext.fresh, ResponseWriter.fresh, h1]
    · show (Render _ _ _).1.response.Writer.body = doc
      simp [Render, Component.call, BaseLayout, Prog.run, ResponseWriter.Write,
        ResponseWriter.setHeader, ResponseWriter.WriteHeader, ResponseWriter.commit,
        EchoContext.fresh, ResponseWriter.fresh, h2]

/-- C9: when nothing was committed before, Render commits the status with the header map
as it found it: WriteHeader comes before the Content-Type set in the history, the frozen
headers are the incoming ones, and only the live map holds text/html afterwards. -/
theorem Render_commits_before_content_type (c : EchoContext) (status : Int) (t : Component)
    (h : c.response.Writer.wroteHeader = false) :
    (Render.headers c status).ops = c.response.Writer.ops ++
      [Op.writeHeader status, Op.headerSet HeaderContentType MIMETextHTML] ∧
    (c.response.Writer.WriteHeader status).header = c.response.Writer.header ∧
    (c.response.Writer.WriteHeader status).sentHeader = c.response.Writer.header ∧
    (Render c status t).1.response.Writer.status = status ∧
    (Render c status t).1.response.Writer.sentHeader = c.response.Writer.header ∧
    Header.Get (Render c status t).1.response.Writer.header "Content-Type" =
      some "text/html" := by
  obtain ⟨_, h2, h3⟩ := Render_committed c status t
  obtain ⟨h4, h5⟩ := headers_of_uncommitted c status h
  refine ⟨headers_ops c status, ?_, ?_, h2.trans h4, h3.trans h5, ?_⟩
  · simp [ResponseWriter.WriteHeader, commit_header]
  · simp [ResponseWriter.WriteHeader, ResponseWriter.commit, h]
  · rw [Render_header]
    exact Header_Get_Set _ _ _

/-- Witness for C9: a new request served over a connection that accepts every byte. -/
theorem Render_commits_before_content_type_witness :
    (EchoContext.fresh ⟨"GET", "/", "", [], ⟨[], none⟩⟩
        ⟨none, GoError.base "closed"⟩).response.Writer.wroteHeader = false ∧
    (Render (EchoContext.fresh ⟨"GET", "/", "", [], ⟨[], none⟩⟩ ⟨none, GoError.base "closed"⟩)
        200 (BaseLayout [60, 104, 116, 109, 108, 62])).1.response.Writer.sentHeader = [] :=
  ⟨rfl, (Render_commits_before_content_type
    (EchoContext.fresh ⟨"GET", "/", "", [], ⟨[], none⟩⟩ ⟨none, GoError.base "closed"⟩)
    200 (BaseLayout [60, 104, 116, 109, 108, 62]) rfl).2.2.2.2.1⟩

/-- C10: Render leaves the request and the bookkeeping fields of the wrapper (Status,
Size, Committed) as they were; for a wrapper that was not committed it still reports
not committed afterwards although the raw writer has a status written. -/
theorem Render_leaves_wrapper_untouched (c : EchoContext) (status : Int) (t : Component)
    (h : c.response.Committed = false) :
    (Render c status t).1.request = c.request ∧
    (Render c status t).1.response.Status = c.response.Status ∧
    (Render c status t).1.response.Size = c.response.Size ∧
    (Render c status t).1.response.Committed = c.response.Committed ∧
    (Render c status t).1.response.Committed = false ∧
    (Render c status t).1.response.Writer.wroteHeader = true :=
  ⟨rfl, rfl, rfl, rfl, h, (Render_committed c status t).1⟩

/-- Witness for C10: a new request whose connection accepts no byte, so that the
component fails. -/
theorem Render_leaves_wrapper_untouched_witness :
    (EchoContext.fresh ⟨"GET", "/", "", [], ⟨[], none⟩⟩
        ⟨some 0, GoError.base "closed"⟩).response.Committed = false ∧
    (Render (EchoContext.fresh ⟨"GET", "/", "", [], ⟨[], none⟩⟩
        ⟨some 0, GoError.base "closed"⟩) 200 (BaseLayout [60])).1.response.Committed = false ∧
    (Render (EchoContext.fresh ⟨"GET", "/", "", [], ⟨[], none⟩⟩
        ⟨some 0, GoError.base "closed"⟩) 200 (BaseLayout [60])).1.response.Writer.wroteHeader
      = true :=
  ⟨rfl, (Render_leaves_wrapper_untouched
      (EchoContext.fresh ⟨"GET", "/", "", [], ⟨[], none⟩⟩ ⟨some 0, GoError.base "closed"⟩)
      200 (BaseLayout [60]) rfl).2.2.2.2.1,
    (Render_leaves_wrapper_untouched
      (EchoContext.fresh ⟨"GET", "/", "", [], ⟨[], none⟩⟩ ⟨some 0, GoError.base "closed"⟩)
      200 (BaseLayout [60]) rfl).2.2.2.2.2⟩

/-! ## Lemmas on executions of the process -/

theorem init_inv (layout : Component) (env : Env) : Inv layout env Proc.init :=
  ⟨rfl, rfl, trivial, trivial, rfl, rfl⟩

theorem stepMain_inv (layout : Component) (env : Env) (s : Proc) (h : Inv layout env s) :
    Inv layout env (stepMain layout env s) := by
  obtain ⟨hm, hb, hme, hbe, hsp, he⟩ := h
  rcases s with ⟨m, b, e, tr⟩
  simp only at hm hb hme hbe hsp he
  cases m with
  | inStart =>
    cases hE : env.eStart with
    | none => simpa [stepMain, hE] using (⟨hm, hb, hme, hbe, hsp, he⟩ : Inv layout env ⟨_, b, e, tr⟩)
    | some r =>
      constructor <;>
        simp_all [stepMain, mainTrace, Event.thread, mainEnvOk, spawned, echoAt,
          List.filter_append]
  | checkErr r =>
    cases r <;> constructor <;>
      simp_all [stepMain, mainTrace, Event.thread, mainEnvOk, spawned, echoAt,
        List.filter_append]
  | goBackground =>
    have hb0 : b = none := by
      cases b
      · rfl
      · simp [spawned] at hsp
    subst hb0
    constructor <;>
      simp_all [stepMain, mainTrace, bgTrace, Event.thread, mainEnvOk, bgEnvOk, spawned,
        echoAt, List.filter_append]
  | _ =>
    constructor <;>
      simp_all [stepMain, mainTrace, Event.thread, mainEnvOk, spawned, echoAt,
        List.filter_append]

theorem stepBackground_inv (layout : Component) (env : Env) (s : Proc) (h : Inv layout env s) :
    Inv layout env (stepBackground env s) := by
  obtain ⟨hm, hb, hme, hbe, hsp, he⟩ := h
  rcases s with ⟨m, b, e, tr⟩
  simp only at hm hb hme hbe hsp he
  rcases b with _ | b
  · exact ⟨hm, hb, hme, hbe, hsp, he⟩
  · cases b with
    | callPbStart =>
      constructor <;>
        simp_all [stepBackground, bgTrace, Event.thread, bgEnvOk, List.filter_append]
    | inPbStart =>
      cases hE : env.pbStart with
      | none =>
        simpa [stepBackground, hE] using
          (⟨hm, hb, hme, hbe, hsp, he⟩ : Inv layout env ⟨m, some BgPc.inPbStart, e, tr⟩)
      | some r =>
        constructor <;>
          simp_all [stepBackground, bgTrace, Event.thread, bgEnvOk, List.filter_append]
    | checkErr r =>
      cases r <;> constructor <;>
        simp_all [stepBackground, bgTrace, Event.thread, bgEnvOk, List.filter_append]
    | ended r => exact ⟨hm, hb, hme, hbe, hsp, he⟩

theorem step_inv (layout : Component) (env : Env) (t : Thread) (s : Proc) (h : Inv layout env s) :
    Inv layout env (step layout env t s) := by
  unfold step
  split
  · exact h
  · cases t
    · exact stepMain_inv layout env s h
    · exact stepBackground_inv layout env s h

theorem run_inv (layout : Component) (env : Env) (sched : List Thread) :
    ∀ s : Proc, Inv layout env s → Inv layout env (run layout env sched s) := by
  induction sched with
  | nil => intro s h; exact h
  | cons t rest ih => intro s h; exact ih _ (step_inv layout env t s h)

theorem reach_inv (layout : Component) (env : Env) (sched : List Thread) :
    Inv layout env (run layout env sched Proc.init) :=
  run_inv layout env sched _ (init_inv layout env)

theorem step_main_pc (layout : Component) (env : Env) (s : Proc) :
    (step layout env Thread.main s).main = mainNext env s.main := by
  rcases s with ⟨m, b, e, tr⟩
  cases m with
  | inStart => cases hE : env.eStart <;> simp [step, stepMain, mainNext, exitCode, hE]
  | checkErr r => cases r <;> simp [step, stepMain, mainNext, exitCode]
  | _ => simp [step, stepMain, mainNext, exitCode]

theorem stepBackground_main (env : Env) (s : Proc) :
    (stepBackground env s).main = s.main ∧ (stepBackground env s).e = s.e := by
  rcases s with ⟨m, b, e, tr⟩
  rcases b with _ | b
  · exact ⟨rfl, rfl⟩
  · cases b with
    | inPbStart => cases hE : env.pbStart <;> simp [stepBackground, hE]
    | checkErr r => cases r <;> simp [stepBackground]
    | _ => simp [stepBackground]

theorem step_background_pc (layout : Component) (env : Env) (s : Proc) :
    (step layout env Thread.background s).main = s.main := by
  unfold step
  split
  · rfl
  · exact (stepBackground_main env s).1

theorem run_main_pc (layout : Component) (env : Env) (sched : List Thread) :
    ∀ s : Proc, (run layout env sched s).main = (mainNext env)^[sched.count Thread.main] s.main := by
  induction sched with
  | nil => intro s; rfl
  | cons t rest ih =>
    intro s
    show (run layout env rest (step layout env t s)).main = _
    rw [ih]
    cases t
    · rw [step_main_pc, List.count_cons_self, Function.iterate_succ_apply]
    · rw [step_background_pc]
      simp

theorem mainNext_fatal (env : Env) (err : GoError) (n : Nat) :
    (mainNext env)^[n] (MainPc.exitedFatal err) = MainPc.exitedFatal err :=
  Function.iterate_fixed rfl n

theorem mainNext_reaches_fatal (env : Env) (err : GoError) (h : env.eStart = some (some err))
    (n : Nat) (hn : 7 ≤ n) : (mainNext env)^[n] MainPc.echoNew = MainPc.exitedFatal err := by
  obtain ⟨k, rfl⟩ := Nat.exists_eq_add_of_le hn
  rw [Nat.add_comm, Function.iterate_add_apply]
  have h7 : (mainNext env)^[7] MainPc.echoNew = MainPc.exitedFatal err := by
    simp [Function.iterate_succ_apply, mainNext, h]
  rw [h7, mainNext_fatal]

theorem mainNext_reaches_start (env : Env) (n : Nat) (hn : 5 ≤ n) :
    spawned ((mainNext env)^[n] MainPc.echoNew) = true ∧
    Event.eStartCall ":8080" ∈ mainTrace ((mainNext env)^[n] MainPc.echoNew) := by
  obtain ⟨k, rfl⟩ := Nat.exists_eq_add_of_le hn
  rw [Nat.add_comm, Function.iterate_add_apply]
  have h5 : (mainNext env)^[5] MainPc.echoNew = MainPc.inStart := by
    simp [Function.iterate_succ_apply, mainNext]
  rw [h5]
  clear hn
  have key : ∀ (j : Nat) (pc : MainPc), spawned pc = true →
      Event.eStartCall ":8080" ∈ mainTrace pc →
      spawned ((mainNext env)^[j] pc) = true ∧
        Event.eStartCall ":8080" ∈ mainTrace ((mainNext env)^[j] pc) := by
    intro j
    induction j with
    | zero => intro pc h1 h2; exact ⟨h1, h2⟩
    | succ j ih =>
      intro pc h1 h2
      rw [Function.iterate_succ_apply]
      apply ih
      · cases pc with
        | inStart => cases hE : env.eStart <;> simp [mainNext, hE, spawned]
        | checkErr r => cases r <;> simp [mainNext, spawned]
        | _ => simp_all [mainNext, spawned]
      · cases pc with
        | inStart => cases hE : env.eStart <;> simp [mainNext, hE, mainTrace]
        | checkErr r => cases r <;> simp [mainNext, mainTrace]
        | _ => simp_all [mainNext, mainTrace]
  exact key k MainPc.inStart rfl (by simp [mainTrace])

theorem mem_of_main_trace (layout : Component) (env : Env) (s : Proc) (h : Inv layout env s)
    (ev : Event) (hev : ev ∈ mainTrace s.main) : ev ∈ s.trace := by
  rw [← h.mainEvents] at hev
  exact (List.mem_filter.mp hev).1

theorem go_mem_of_spawned (layout : Component) (env : Env) (s : Proc) (h : Inv layout env s)
    (hs : spawned s.main = true) : Event.goStmt ∈ s.trace := by
  apply mem_of_main_trace layout env s h
  cases hm : s.main <;> simp_all [spawned, mainTrace]

theorem snoc_split {α : Type} (tr pre post : List α) (e x : α)
    (h : tr ++ [e] = pre ++ x :: post) :
    (pre = tr ∧ x = e) ∨ ∃ rest, tr = pre ++ x :: rest := by
  rcases List.eq_nil_or_concat post with rfl | ⟨rest, y, rfl⟩
  · have h2 := List.append_inj' h rfl
    exact Or.inl ⟨h2.1.symm, by simpa using h2.2.symm⟩
  · have h3 : tr ++ [e] = (pre ++ x :: rest) ++ [y] := by simpa using h
    exact Or.inr ⟨rest, (List.append_inj' h3 rfl).1⟩

theorem goFirst_snoc (tr : List Event) (ev : Event) (h : GoFirst tr)
    (hev : ev.isStartCall = true → Event.goStmt ∈ tr) : GoFirst (tr ++ [ev]) := by
  intro pre post x hsplit hx
  rcases snoc_split tr pre post ev x hsplit with ⟨rfl, rfl⟩ | ⟨rest, hrest⟩
  · exact hev hx
  · exact h pre rest x hrest hx

theorem stepMain_goFirst (layout : Component) (env : Env) (s : Proc) (hI : Inv layout env s)
    (h : GoFirst s.trace) : GoFirst (stepMain layout env s).trace := by
  have hgo := go_mem_of_spawned layout env s hI
  rcases s with ⟨m, b, e, tr⟩
  simp only at h hgo
  cases m with
  | inStart =>
    cases hE : env.eStart with
    | none => simpa [stepMain, hE] using h
    | some r =>
      simp only [stepMain, hE]
      exact goFirst_snoc tr _ h (by simp [Event.isStartCall])
  | checkErr r =>
    cases r <;> simp only [stepMain] <;>
      exact goFirst_snoc tr _ h (by simp [Event.isStartCall])
  | callStart =>
    simp only [stepMain]
    exact goFirst_snoc tr _ h (fun _ => hgo rfl)
  | exitedFatal err => simpa [stepMain] using h
  | returned => simpa [stepMain] using h
  | _ =>
    simp only [stepMain]
    exact goFirst_snoc tr _ h (by simp [Event.isStartCall])

theorem stepBackground_goFirst (layout : Component) (env : Env) (s : Proc) (hI : Inv layout env s)
    (h : GoFirst s.trace) : GoFirst (stepBackground env s).trace := by
  have hgo := go_mem_of_spawned layout env s hI
  have hsp := hI.bgSpawned
  rcases s with ⟨m, b, e, tr⟩
  simp only at h hgo hsp
  rcases b with _ | b
  · simpa [stepBackground] using h
  · cases b with
    | callPbStart =>
      simp only [stepBackground]
      exact goFirst_snoc tr _ h (fun _ => hgo (by simpa using hsp.symm))
    | inPbStart =>
      cases hE : env.pbStart with
      | none => simpa [stepBackground, hE] using h
      | some r =>
        simp only [stepBackground, hE]
        exact goFirst_snoc tr _ h (by simp [Event.isStartCall])
    | checkErr r =>
      cases r
      · simpa [stepBackground] using h
      · simp only [stepBackground]
        exact goFirst_snoc tr _ h (by simp [Event.isStartCall])
    | ended r => simpa [stepBackground] using h

theorem run_goFirst (layout : Component) (env : Env) (sched : List Thread) :
    ∀ s : Proc, Inv layout env s → GoFirst s.trace → GoFirst (run layout env sched s).trace := by
  induction sched with
  | nil => intro s _ h; exact h
  | cons t rest ih =>
    intro s hI h
    refine ih _ (step_inv layout env t s hI) ?_
    show GoFirst (step layout env t s).trace
    unfold step
    split
    · exact h
    · cases t
      · exact stepMain_goFirst layout env s hI h
      · exact stepBackground_goFirst layout env s hI h

theorem reach_goFirst (layout : Component) (env : Env) (sched : List Thread) :
    GoFirst (run layout env sched Proc.init).trace :=
  run_goFirst layout env sched _ (init_inv layout env) (by intro pre post x h; simp [Proc.init] at h)

theorem count_main_event (layout : Component) (env : Env) (s : Proc) (h : Inv layout env s)
    (ev : Event) (hev : ev.thread = Thread.main) :
    s.trace.count ev = (mainTrace s.main).count ev := by
  rw [← h.mainEvents, List.count_filter]
  simpa using hev

theorem count_bg_event (layout : Component) (env : Env) (s : Proc) (h : Inv layout env s)
    (ev : Event) (hev : ev.thread = Thread.background) :
    s.trace.count ev = (bgTrace s.bg).count ev := by
  rw [← h.bgEvents, List.count_filter]
  simpa using hev

theorem countP_logPrintf (layout : Component) (env : Env) (s : Proc) (h : Inv layout env s) :
    s.trace.countP Event.isLogPrintf = (bgTrace s.bg).countP Event.isLogPrintf := by
  rw [← h.bgEvents, List.countP_filter]
  apply List.countP_congr
  intro ev _
  cases ev <;> simp [Event.isLogPrintf, Event.thread]

theorem mainNext_pbStart (env : Env) (p : Option (Option GoError)) :
    mainNext { env with pbStart := p } = mainNext env := by
  funext pc
  cases pc <;> rfl

theorem run_pbStart_independent (layout : Component) (env : Env) (p : Option (Option GoError))
    (sched : List Thread) :
    (run layout { env with pbStart := p } sched Proc.init).main =
      (run layout env sched Proc.init).main ∧
    (run layout { env with pbStart := p } sched Proc.init).e = (run layout env sched Proc.init).e := by
  have hm : (run layout { env with pbStart := p } sched Proc.init).main =
      (run layout env sched Proc.init).main := by
    rw [run_main_pc, run_main_pc, mainNext_pbStart]
  refine ⟨hm, ?_⟩
  rw [(reach_inv layout { env with pbStart := p } sched).echo, (reach_inv layout env sched).echo, hm]

theorem fatal_of_exitCode (pc : MainPc) (h : exitCode pc = some 1) :
    ∃ err, pc = MainPc.exitedFatal err := by
  cases pc <;> simp [exitCode] at h
  exact ⟨_, rfl⟩

theorem mem_main_trace_of_mem (layout : Component) (env : Env) (s : Proc) (h : Inv layout env s)
    (ev : Event) (hth : ev.thread = Thread.main) (hev : ev ∈ s.trace) : ev ∈ mainTrace s.main := by
  rw [← h.mainEvents]
  exact List.mem_filter.mpr ⟨hev, by simpa using hth⟩

theorem serve_listening (layout : Component) (env : Env) (s : Proc) (h : Inv layout env s)
    (req : Request) (conn : Conn) (hm : req.Method = "GET") (hp : req.Path = "/")
    (hl : s.listening = true) :
    s.serve req conn = some (Served.handled (rootHandler layout (EchoContext.fresh req conn)).1
      (rootHandler layout (EchoContext.fresh req conn)).2) := by
  have hpc : s.main = MainPc.inStart := by simpa [Proc.listening] using hl
  unfold Proc.serve
  rw [if_pos hl, h.echo, hpc, serve_root layout req conn hm hp]

/-! ## The claims about func main -/

/-- C5: in every execution the route table of the Echo instance is empty or holds the
single entry (GET, "/"), it holds exactly that entry while the front server listens, and
a request whose path is not "/" selects no handler: lookup and dispatch give the default
not-found result. -/
theorem only_root_route_registered (layout : Component) (env : Env) (sched : List Thread)
    (req : Request) (conn : Conn) (h : req.Path ≠ "/") :
    ((run layout env sched Proc.init).e.routes.map (fun r => (r.Method, r.Path)) = [] ∨
      (run layout env sched Proc.init).e.routes.map (fun r => (r.Method, r.Path)) =
        [("GET", "/")]) ∧
    ((run layout env sched Proc.init).listening = true →
      (run layout env sched Proc.init).e.routes.map (fun r => (r.Method, r.Path)) =
        [("GET", "/")]) ∧
    (run layout env sched Proc.init).e.Find req.Method req.Path = Found.notFound ∧
    (run layout env sched Proc.init).e.ServeHTTP req conn = Served.notFound := by
  have hI := reach_inv layout env sched
  generalize run layout env sched Proc.init = s at hI ⊢
  have he := hI.echo
  rcases s with ⟨m, b, e, tr⟩
  simp only at he
  subst he
  have h2 : ¬ ("/" = req.Path) := fun hh => h hh.symm
  cases m <;>
    simp [echoAt, Echo.New, Echo.GET, Echo.Find, Echo.ServeHTTP, Proc.listening, h, h2]

/-- Witness for C5: a request for /cards while the front server listens. -/
theorem only_root_route_registered_witness :
    (run (BaseLayout [60]) ⟨none, none⟩ [Thread.main, Thread.main, Thread.main, Thread.main, Thread.main]
        Proc.init).listening = true ∧
    (run (BaseLayout [60]) ⟨none, none⟩ [Thread.main, Thread.main, Thread.main, Thread.main, Thread.main]
        Proc.init).e.ServeHTTP ⟨"GET", "/cards", "", [], ⟨[], none⟩⟩
        ⟨none, GoError.base "closed"⟩ = Served.notFound :=
  ⟨rfl, (only_root_route_registered (BaseLayout [60]) ⟨none, none⟩
      [Thread.main, Thread.main, Thread.main, Thread.main, Thread.main]
      ⟨"GET", "/cards", "", [], ⟨[], none⟩⟩ ⟨none, GoError.base "closed"⟩ (by decide)).2.2.2⟩

/-- C6: some execution ends in the fatal exit (status 1) exactly when e.Start returns a
non-nil error; the fatal exit is the log.Fatal action; when e.Start returns a non-nil
error every execution in which main takes its seven steps ends in the fatal exit;
whatever pb.Start does changes neither the program counter of main nor the exit status;
and the only other end of the process is the normal return of main (status 0) after
e.Start returned nil. -/
theorem fatal_exit_iff_front_start_error (layout : Component) (env : Env) :
    ((∃ sched, exitCode (run layout env sched Proc.init).main = some 1) ↔
      ∃ err, env.eStart = some (some err)) ∧
    (∀ sched, exitCode (run layout env sched Proc.init).main = some 1 ↔
      ∃ err, Event.logFatal err ∈ (run layout env sched Proc.init).trace) ∧
    (∀ sched err, env.eStart = some (some err) → 7 ≤ sched.count Thread.main →
      exitCode (run layout env sched Proc.init).main = some 1) ∧
    (∀ sched p, exitCode (run layout { env with pbStart := p } sched Proc.init).main =
      exitCode (run layout env sched Proc.init).main) ∧
    (∀ sched code, exitCode (run layout env sched Proc.init).main = some code →
      code ≠ 1 → code = 0 ∧ env.eStart = some none) := by
  have hprog : ∀ sched err, env.eStart = some (some err) → 7 ≤ sched.count Thread.main →
      exitCode (run layout env sched Proc.init).main = some 1 := by
    intro sched err he hn
    rw [run_main_pc]
    show exitCode ((mainNext env)^[sched.count Thread.main] MainPc.echoNew) = some 1
    rw [mainNext_reaches_fatal env err he _ hn]
    rfl
  refine ⟨⟨?_, ?_⟩, ?_, hprog, ?_, ?_⟩
  · rintro ⟨sched, hx⟩
    obtain ⟨err, hpc⟩ := fatal_of_exitCode _ hx
    have hI := (reach_inv layout env sched).mainEnv
    rw [hpc] at hI
    exact ⟨err, hI⟩
  · rintro ⟨err, he⟩
    exact ⟨List.replicate 7 Thread.main, hprog _ err he (by simp)⟩
  · intro sched
    constructor
    · intro hx
      obtain ⟨err, hpc⟩ := fatal_of_exitCode _ hx
      refine ⟨err, mem_of_main_trace layout env _ (reach_inv layout env sched) _ ?_⟩
      rw [hpc]
      simp [mainTrace]
    · rintro ⟨err, hmem⟩
      have h2 := mem_main_trace_of_mem layout env _ (reach_inv layout env sched) (Event.logFatal err) rfl hmem
      generalize (run layout env sched Proc.init).main = pc at h2 ⊢
      cases pc <;> simp [mainTrace, exitCode] at h2 ⊢
  · intro sched p
    rw [(run_pbStart_independent layout env p sched).1]
  · intro sched code hx hne
    have hI := (reach_inv layout env sched).mainEnv
    generalize (run layout env sched Proc.init).main = pc at hx hI
    cases pc <;> simp [exitCode] at hx
    · exact absurd hx.symm hne
    · exact ⟨hx.symm, hI⟩

/-- C7: in every execution pb.Start is called at most once and at most one log.Printf
happens; a background goroutine that ended after an error has logged exactly that error
once; after such a failure the front server still reaches listening; replacing the
outcome of pb.Start changes neither the program counter of main (hence not the exit
status) nor the Echo instance; and every GET / served while listening commits status 200. -/
theorem backend_failure_is_isolated (layout : Component) (env : Env) (sched : List Thread) :
    (run layout env sched Proc.init).trace.count Event.pbStartCall ≤ 1 ∧
    (run layout env sched Proc.init).trace.countP Event.isLogPrintf ≤ 1 ∧
    (∀ err, (run layout env sched Proc.init).bg = some (BgPc.ended (some err)) →
      env.pbStart = some (some err) ∧
      (run layout env sched Proc.init).trace.count (Event.logPrintf err) = 1) ∧
    (∀ err, env.pbStart = some (some err) →
      (run layout env [Thread.main, Thread.main, Thread.main, Thread.main, Thread.background,
        Thread.background, Thread.background, Thread.main] Proc.init).bg =
          some (BgPc.ended (some err)) ∧
      (run layout env [Thread.main, Thread.main, Thread.main, Thread.main, Thread.background,
        Thread.background, Thread.background, Thread.main] Proc.init).listening = true) ∧
    (∀ p, (run layout { env with pbStart := p } sched Proc.init).main =
        (run layout env sched Proc.init).main ∧
      (run layout { env with pbStart := p } sched Proc.init).e =
        (run layout env sched Proc.init).e) ∧
    (∀ req conn, req.Method = "GET" → req.Path = "/" →
      (run layout env sched Proc.init).listening = true →
      ∃ c err, (run layout env sched Proc.init).serve req conn = some (Served.handled c err) ∧
        c.response.Writer.wroteHeader = true ∧ c.response.Writer.status = 200) := by
  have hI := reach_inv layout env sched
  refine ⟨?_, ?_, ?_, ?_, fun p => run_pbStart_independent layout env p sched, ?_⟩
  · rw [count_bg_event layout env _ hI Event.pbStartCall rfl]
    generalize (run layout env sched Proc.init).bg = b
    rcases b with _ | b
    · simp [bgTrace]
    · cases b with
      | ended r => cases r <;> simp [bgTrace]
      | _ => simp [bgTrace]
  · rw [countP_logPrintf layout env _ hI]
    generalize (run layout env sched Proc.init).bg = b
    rcases b with _ | b
    · simp [bgTrace]
    · cases b with
      | ended r => cases r <;> simp [bgTrace, Event.isLogPrintf]
      | _ => simp [bgTrace, Event.isLogPrintf]
  · intro err hb
    have henv := hI.bgEnv
    rw [hb] at henv
    refine ⟨henv, ?_⟩
    rw [count_bg_event layout env _ hI (Event.logPrintf err) rfl, hb]
    simp [bgTrace]
  · intro err he
    constructor <;>
      simp [run, step, stepMain, stepBackground, exitCode, Proc.init, Proc.listening, he]
  · intro req conn hm hp hl
    refine ⟨_, _, serve_listening layout env _ hI req conn hm hp hl, ?_, ?_⟩
    · exact (rootHandler_writer layout req conn).1
    · exact (rootHandler_writer layout req conn).2.1

theorem run_snoc (layout : Component) (env : Env) (sched : List Thread) (t : Thread)
    (s : Proc) : run layout env (sched ++ [t]) s = step layout env t (run layout env sched s) := by
  simp [run, List.foldl_append]

theorem spawned_iterate (env : Env) (n : Nat) (hn : 4 ≤ n) :
    spawned ((mainNext env)^[n] MainPc.echoNew) = true := by
  obtain ⟨k, rfl⟩ := Nat.exists_eq_add_of_le hn
  rw [Nat.add_comm, Function.iterate_add_apply]
  have h4 : (mainNext env)^[4] MainPc.echoNew = MainPc.callStart := by
    simp [Function.iterate_succ_apply, mainNext]
  rw [h4]
  have key : ∀ (j : Nat) (pc : MainPc), spawned pc = true →
      spawned ((mainNext env)^[j] pc) = true := by
    intro j
    induction j with
    | zero => intro pc h1; exact h1
    | succ j ih =>
      intro pc h1
      rw [Function.iterate_succ_apply]
      apply ih
      cases pc with
      | inStart => cases hE : env.eStart <;> simp [mainNext, hE, spawned]
      | checkErr r => cases r <;> simp [mainNext, spawned]
      | _ => simp_all [mainNext, spawned]
  exact key k MainPc.callStart rfl

theorem count_pbStartCall (layout : Component) (env : Env) (s : Proc) (h : Inv layout env s) :
    s.trace.count Event.pbStartCall =
      match s.bg with
      | none => 0
      | some BgPc.callPbStart => 0
      | some _ => 1 := by
  rw [count_bg_event layout env s h Event.pbStartCall rfl]
  rcases s with ⟨m, b, e, tr⟩
  rcases b with _ | b
  · simp [bgTrace]
  · cases b with
    | ended r => cases r <;> simp [bgTrace]
    | _ => simp [bgTrace]

/-- C8: in every execution the go statement runs at most once and pb.Start is called at
most once; every call of e.Start or of pb.Start in the history has the go statement
before it; once e.Start was called the go statement has run exactly once; main reaches
the call of e.Start after five steps of its own, whatever pb.Start does and whether or
not the background goroutine has run; after four steps of main the go statement has run
exactly once and the background goroutine exists; pb.Start has been called exactly once
as soon as that goroutine has taken its first step, which it takes whenever it is
scheduled while the process is alive. -/
theorem backend_launched_once_before_front_start (layout : Component) (env : Env)
    (sched : List Thread) :
    (run layout env sched Proc.init).trace.count Event.goStmt ≤ 1 ∧
    (run layout env sched Proc.init).trace.count Event.pbStartCall ≤ 1 ∧
    (∀ pre post addr,
      (run layout env sched Proc.init).trace = pre ++ Event.eStartCall addr :: post →
      Event.goStmt ∈ pre) ∧
    (∀ pre post, (run layout env sched Proc.init).trace = pre ++ Event.pbStartCall :: post →
      Event.goStmt ∈ pre) ∧
    (∀ addr, Event.eStartCall addr ∈ (run layout env sched Proc.init).trace →
      addr = ":8080" ∧ (run layout env sched Proc.init).trace.count Event.goStmt = 1) ∧
    (5 ≤ sched.count Thread.main →
      Event.eStartCall ":8080" ∈ (run layout env sched Proc.init).trace) ∧
    (4 ≤ sched.count Thread.main →
      (run layout env sched Proc.init).bg.isSome = true ∧
      (run layout env sched Proc.init).trace.count Event.goStmt = 1) ∧
    ((run layout env sched Proc.init).trace.count Event.pbStartCall =
      match (run layout env sched Proc.init).bg with
      | none => 0
      | some BgPc.callPbStart => 0
      | some _ => 1) ∧
    ((run layout env sched Proc.init).bg = some BgPc.callPbStart →
      exitCode (run layout env sched Proc.init).main = none →
      (run layout env (sched ++ [Thread.background]) Proc.init).bg = some BgPc.inPbStart ∧
      (run layout env (sched ++ [Thread.background]) Proc.init).trace.count
        Event.pbStartCall = 1) ∧
    ((run layout env [Thread.main, Thread.main, Thread.main, Thread.main, Thread.background]
        Proc.init).trace =
      [Event.echoNew, Event.pocketbaseNew, Event.routeGET "/", Event.goStmt,
       Event.pbStartCall]) := by
  have hI := reach_inv layout env sched
  have hG := reach_goFirst layout env sched
  refine ⟨?_, ?_, ?_, ?_, ?_, ?_, ?_, count_pbStartCall layout env _ hI, ?_, rfl⟩
  · rw [count_main_event layout env _ hI Event.goStmt rfl]
    generalize (run layout env sched Proc.init).main = pc
    cases pc <;> simp [mainTrace]
  · rw [count_bg_event layout env _ hI Event.pbStartCall rfl]
    generalize (run layout env sched Proc.init).bg = b
    rcases b with _ | b
    · simp [bgTrace]
    · cases b with
      | ended r => cases r <;> simp [bgTrace]
      | _ => simp [bgTrace]
  · intro pre post addr hsplit
    exact hG pre post _ hsplit rfl
  · intro pre post hsplit
    exact hG pre post _ hsplit rfl
  · intro addr hmem
    have h2 := mem_main_trace_of_mem layout env _ hI (Event.eStartCall addr) rfl hmem
    rw [count_main_event layout env _ hI Event.goStmt rfl]
    generalize (run layout env sched Proc.init).main = pc at h2 ⊢
    cases pc <;> simp [mainTrace] at h2 ⊢ <;> exact h2
  · intro hn
    apply mem_of_main_trace layout env _ hI
    rw [run_main_pc]
    exact (mainNext_reaches_start env _ hn).2
  · intro hn
    have hsp : spawned (run layout env sched Proc.init).main = true := by
      rw [run_main_pc]
      exact spawned_iterate env _ hn
    refine ⟨by rw [hI.bgSpawned, hsp], ?_⟩
    rw [count_main_event layout env _ hI Event.goStmt rfl]
    generalize (run layout env sched Proc.init).main = pc at hsp ⊢
    cases pc <;> simp [mainTrace, spawned] at hsp ⊢
  · intro hb hx
    have hc := count_pbStartCall layout env _ hI
    rw [hb] at hc
    rw [run_snoc]
    generalize run layout env sched Proc.init = s at hb hx hc
    rcases s with ⟨m, b, e, tr⟩
    simp only at hb hx hc
    subst hb
    simp [step, stepBackground, hx, List.count_append, hc]

end GoCards
